import Mathlib

/-!
Verification of the `ami` modal text editor (src/main.rs).

The editor state and every key-event handler are shallowly embedded below.
Rust `u16` cursor coordinates are modeled as `Nat` together with explicit
wrapping arithmetic modulo 2^16 (the semantics of overflowing `u16`
operations); `usize` arithmetic wraps modulo 2^64.  Saturating operations
(`saturating_sub`) coincide with truncated `Nat` subtraction.  `Vec`/`String`
indexing that would panic (out-of-bounds access, `split_off` past the end,
`Vec::remove` past the end) is modeled by the dispatcher returning `none`.
Lines and the command string are sequences of characters (`List Char`).
-/

namespace Ami

/-- 2^16, the modulus of Rust `u16` arithmetic. -/
def U16MOD : Nat := 65536

/-- 2^64, the modulus of Rust `usize` arithmetic. -/
def USIZEMOD : Nat := 18446744073709551616

/-- `u16` truncating cast (`as u16`). -/
def toU16 (n : Nat) : Nat := n % U16MOD

/-- Wrapping `u16` addition (`x + y` on `u16`, release semantics). -/
def wadd16 (a b : Nat) : Nat := (a + b) % U16MOD

/-- Wrapping `u16` subtraction (`x - y` on `u16`, release semantics). -/
def wsub16 (a b : Nat) : Nat := (a + (U16MOD - b % U16MOD)) % U16MOD

/-- Character sequence of a string literal. -/
def chars (s : String) : List Char := s.data

/-- `Mode`: the three input modes of the editor. -/
inductive Mode where
  | Normal
  | Command
  | Insert
deriving DecidableEq, Repr

/-- Key codes relevant to the editor (crossterm `KeyCode`). -/
inductive KeyCode where
  | char (c : Char)
  | backspace
  | enter
  | esc
deriving DecidableEq, Repr

/-- Key modifiers used by the editor (crossterm `KeyModifiers`). -/
inductive KeyMods where
  | none
  | control
deriving DecidableEq, Repr

/-- A key event: a key code plus a modifier set. -/
structure KeyEvent where
  code : KeyCode
  mods : KeyMods
deriving DecidableEq, Repr

/-- `Cursor`: the three per-mode (column, row) coordinate pairs. -/
structure Cursor where
  normal : Nat × Nat
  command : Nat × Nat
  insert : Nat × Nat
deriving DecidableEq, Repr

/-- `State`: the editor state (`struct State` in the source). -/
structure State where
  running : Bool
  width : Nat
  height : Nat
  mode : Mode
  cursor_pos : Cursor
  status_bar : List String
  command : List Char
  buffer : List (List Char)
deriving DecidableEq, Repr

/-- The `normal_map` actions: Normal-mode key dispatch.  Unmatched events are
silently ignored (the main loop's text fallback applies only in Command and
Insert mode). -/
def normalStep (e : KeyEvent) (s : State) : Option State :=
  if e = ⟨.char ':', .none⟩ then
    some { s with mode := .Command,
                  status_bar := s.status_bar.set 0 "COMMAND",
                  command := chars ":" }
  else if e = ⟨.char 'i', .none⟩ then
    -- insert.0 = insert.0.saturating_sub(1)
    some { s with mode := .Insert,
                  status_bar := s.status_bar.set 0 "INSERT",
                  cursor_pos := { s.cursor_pos with
                    insert := (s.cursor_pos.insert.1 - 1, s.cursor_pos.insert.2) } }
  else if e = ⟨.char 'a', .none⟩ then
    -- let line = &buffer[normal.1]; let length = line.len() as u16;
    -- if normal.0 != length - 1 { insert.0 += 1 }
    match s.buffer[s.cursor_pos.normal.2]? with
    | Option.none => none
    | some line =>
      if s.cursor_pos.normal.1 ≠ wsub16 (toU16 line.length) 1 then
        some { s with mode := .Insert,
                      status_bar := s.status_bar.set 0 "INSERT",
                      cursor_pos := { s.cursor_pos with
                        insert := (wadd16 s.cursor_pos.insert.1 1, s.cursor_pos.insert.2) } }
      else
        some { s with mode := .Insert, status_bar := s.status_bar.set 0 "INSERT" }
  else if e = ⟨.char 'h', .none⟩ then
    -- both columns via saturating_sub
    some { s with cursor_pos := { s.cursor_pos with
             normal := (s.cursor_pos.normal.1 - 1, s.cursor_pos.normal.2),
             insert := (s.cursor_pos.insert.1 - 1, s.cursor_pos.insert.2) } }
  else if e = ⟨.char 'l', .none⟩ then
    -- if normal.0 < length - 1 { normal.0 += 1; insert.0 += 1 }
    match s.buffer[s.cursor_pos.normal.2]? with
    | Option.none => none
    | some line =>
      if s.cursor_pos.normal.1 < wsub16 (toU16 line.length) 1 then
        some { s with cursor_pos := { s.cursor_pos with
                 normal := (wadd16 s.cursor_pos.normal.1 1, s.cursor_pos.normal.2),
                 insert := (wadd16 s.cursor_pos.insert.1 1, s.cursor_pos.insert.2) } }
      else some s
  else if e = ⟨.char 'j', .none⟩ then
    -- let rows = (buffer.len() - 1) as u16; if normal.1 < rows { normal.1 += 1 }
    if s.cursor_pos.normal.2 < toU16 ((s.buffer.length + (USIZEMOD - 1)) % USIZEMOD) then
      some { s with cursor_pos := { s.cursor_pos with
               normal := (s.cursor_pos.normal.1, wadd16 s.cursor_pos.normal.2 1) } }
    else some s
  else if e = ⟨.char 'k', .none⟩ then
    if s.cursor_pos.normal.2 > 0 then
      some { s with cursor_pos := { s.cursor_pos with
               normal := (s.cursor_pos.normal.1, s.cursor_pos.normal.2 - 1) } }
    else some s
  else some s

/-- `command_to_normal`: shared Command-to-Normal transition. -/
def cmdToNormal (s : State) : State :=
  { s with mode := .Normal,
           status_bar := s.status_bar.set 0 "NORMAL",
           command := [],
           cursor_pos := { s.cursor_pos with command := (1, s.cursor_pos.command.2) } }

/-- The `command_map` actions plus the Command-mode printable fallback of the
main loop (`command.push(x); command.0 += 1`). -/
def commandStep (e : KeyEvent) (s : State) : Option State :=
  if e = ⟨.backspace, .none⟩ then
    -- command.pop(); command.0 = command.0.saturating_sub(1);
    -- if command.is_empty() { back to Normal, command.0 = 1 }
    if s.command.dropLast.isEmpty then
      some { s with command := s.command.dropLast,
                    mode := .Normal,
                    status_bar := s.status_bar.set 0 "NORMAL",
                    cursor_pos := { s.cursor_pos with command := (1, s.cursor_pos.command.2) } }
    else
      some { s with command := s.command.dropLast,
                    cursor_pos := { s.cursor_pos with
                      command := (s.cursor_pos.command.1 - 1, s.cursor_pos.command.2) } }
  else if e = ⟨.char 'c', .control⟩ then
    some (cmdToNormal s)
  else if e = ⟨.esc, .none⟩ then
    some (cmdToNormal s)
  else if e = ⟨.enter, .none⟩ then
    if s.command = chars ":q" then
      some { s with running := false }
    else
      some { s with command := chars "Unknown command.",
                    mode := .Normal,
                    status_bar := s.status_bar.set 0 "NORMAL",
                    cursor_pos := { s.cursor_pos with command := (1, s.cursor_pos.command.2) } }
  else
    match e.code with
    | .char c =>
      some { s with command := s.command ++ [c],
                    cursor_pos := { s.cursor_pos with
                      command := (wadd16 s.cursor_pos.command.1 1, s.cursor_pos.command.2) } }
    | _ => some s

/-- The `insert_map` actions plus the Insert-mode printable fallback of the
main loop (clamped `line.insert`). -/
def insertStep (e : KeyEvent) (s : State) : Option State :=
  if e = ⟨.esc, .none⟩ then
    -- normal.0 = insert.0.saturating_sub(1); then command_to_normal
    some (cmdToNormal { s with cursor_pos := { s.cursor_pos with
      normal := (s.cursor_pos.insert.1 - 1, s.cursor_pos.normal.2) } })
  else if e = ⟨.enter, .none⟩ then
    -- let (x, y) = insert; let tail = buffer[y].split_off(x);
    -- buffer.insert(y + 1, tail); normal = (0, y + 1); insert = (0, y + 1)
    match s.buffer[s.cursor_pos.insert.2]? with
    | Option.none => none
    | some line =>
      if s.cursor_pos.insert.1 ≤ line.length then
        some { s with
          buffer := (s.buffer.set s.cursor_pos.insert.2 (line.take s.cursor_pos.insert.1)).insertIdx
                      (s.cursor_pos.insert.2 + 1) (line.drop s.cursor_pos.insert.1),
          cursor_pos := { s.cursor_pos with
            normal := (0, wadd16 s.cursor_pos.insert.2 1),
            insert := (0, wadd16 s.cursor_pos.insert.2 1) } }
      else none
  else if e = ⟨.backspace, .none⟩ then
    if s.cursor_pos.insert.1 > 0 then
      -- let index = (x - 1) as usize; if index < buffer[ys].len() { buffer[ys].remove(index) }
      -- normal.0 -= 1; insert.0 -= 1
      match s.buffer[s.cursor_pos.insert.2]? with
      | Option.none => none
      | some line =>
        some { s with
          buffer := s.buffer.set s.cursor_pos.insert.2
            (if s.cursor_pos.insert.1 - 1 < line.length
             then line.eraseIdx (s.cursor_pos.insert.1 - 1) else line),
          cursor_pos := { s.cursor_pos with
            normal := (wsub16 s.cursor_pos.normal.1 1, s.cursor_pos.normal.2),
            insert := (s.cursor_pos.insert.1 - 1, s.cursor_pos.insert.2) } }
    else if s.cursor_pos.insert.2 > 0 then
      -- let line = buffer.remove(ys); let prev_length = buffer[ys - 1].len() as u16;
      -- buffer[ys - 1].push_str(&line); insert = normal = (prev_length, (ys - 1) as u16)
      match s.buffer[s.cursor_pos.insert.2]? with
      | Option.none => none
      | some line =>
        match (s.buffer.eraseIdx s.cursor_pos.insert.2)[s.cursor_pos.insert.2 - 1]? with
        | Option.none => none
        | some prev =>
          some { s with
            buffer := (s.buffer.eraseIdx s.cursor_pos.insert.2).set
              (s.cursor_pos.insert.2 - 1) (prev ++ line),
            cursor_pos := { s.cursor_pos with
              normal := (toU16 prev.length, toU16 (s.cursor_pos.insert.2 - 1)),
              insert := (toU16 prev.length, toU16 (s.cursor_pos.insert.2 - 1)) } }
    else some s
  else
    match e.code with
    | .char c =>
      -- let insert_index = (col as usize).min(line.len()); line.insert(insert_index, x);
      -- insert.0 += 1; normal.0 += 1
      match s.buffer[s.cursor_pos.insert.2]? with
      | Option.none => none
      | some line =>
        some { s with
          buffer := s.buffer.set s.cursor_pos.insert.2
                      (line.insertIdx (min s.cursor_pos.insert.1 line.length) c),
          cursor_pos := { s.cursor_pos with
            insert := (wadd16 s.cursor_pos.insert.1 1, s.cursor_pos.insert.2),
            normal := (wadd16 s.cursor_pos.normal.1 1, s.cursor_pos.normal.2) } }
    | _ => some s

/-- One iteration of the event loop's key handling: the global map (Ctrl-z)
is consulted first, then the current mode's map with its fallback. -/
def dispatch (e : KeyEvent) (s : State) : Option State :=
  if e = ⟨.char 'z', .control⟩ then some { s with running := false }
  else
    match s.mode with
    | .Normal => normalStep e s
    | .Command => commandStep e s
    | .Insert => insertStep e s

/-- The initial state built in `main` (buffer = one empty line, Normal mode,
normal and insert cursors at the origin, command cursor at (1, height - 1)). -/
def initState (width height : Nat) : State :=
  { running := true,
    width := width,
    height := height,
    mode := .Normal,
    cursor_pos := { normal := (0, 0), command := (1, wsub16 height 1), insert := (0, 0) },
    status_bar := ["NORMAL"],
    command := [],
    buffer := [[]] }

/-- Dispatch a whole sequence of key events, failing if any event panics. -/
def stepsFold (es : List KeyEvent) (s : State) : Option State :=
  es.foldlM (fun t e => dispatch e t) s

/-- States reachable from the initial state by key events. -/
inductive Reachable (w h : Nat) : State → Prop where
  | init : Reachable w h (initState w h)
  | step {s s' : State} (e : KeyEvent) : Reachable w h s → dispatch e s = some s' →
      Reachable w h s'

/-- The `j` key event. -/
def keyJ : KeyEvent := ⟨.char 'j', .none⟩

/-- The `k` key event. -/
def keyK : KeyEvent := ⟨.char 'k', .none⟩

/-- The `l` key event. -/
def keyL : KeyEvent := ⟨.char 'l', .none⟩

/-- The `a` key event. -/
def keyA : KeyEvent := ⟨.char 'a', .none⟩

/-- The `i` key event. -/
def keyI : KeyEvent := ⟨.char 'i', .none⟩

/-- The Enter key event. -/
def keyEnter : KeyEvent := ⟨.enter, .none⟩

/-- The Escape key event. -/
def keyEsc : KeyEvent := ⟨.esc, .none⟩

/-- The Backspace key event. -/
def keyBS : KeyEvent := ⟨.backspace, .none⟩

/-- The Ctrl-C key event. -/
def keyCtrlC : KeyEvent := ⟨.char 'c', .control⟩

/-- A printable character key event with no modifiers. -/
def charKey (c : Char) : KeyEvent := ⟨.char c, .none⟩

/-- Key events typing a sequence of printable characters. -/
def typeKeys (cs : List Char) : List KeyEvent := cs.map charKey

/-- `n` consecutive Backspace key events. -/
def bsKeys (n : Nat) : List KeyEvent := List.replicate n keyBS

theorem toU16_lt (n : Nat) : toU16 n < U16MOD := by
  unfold toU16 U16MOD; omega

theorem toU16_le (n : Nat) : toU16 n ≤ n := by
  unfold toU16; exact Nat.mod_le _ _

theorem wadd16_lt (a b : Nat) : wadd16 a b < U16MOD := by
  unfold wadd16 U16MOD; omega

theorem wsub16_lt (a b : Nat) : wsub16 a b < U16MOD := by
  unfold wsub16 U16MOD; omega

theorem wadd16_le (a b : Nat) : wadd16 a b ≤ a + b := by
  unfold wadd16; exact Nat.mod_le _ _

theorem wadd16_eq_of_lt {a : Nat} (h : a + 1 < U16MOD) : wadd16 a 1 = a + 1 := by
  simp only [wadd16, U16MOD] at *; omega

theorem wsub16_one_eq {a : Nat} (h0 : 0 < a) (h : a < U16MOD) : wsub16 a 1 = a - 1 := by
  simp only [wsub16, U16MOD] at *; omega

theorem wsub16_wadd16_one {a : Nat} (h : a < U16MOD) : wsub16 (wadd16 a 1) 1 = a := by
  simp only [wsub16, wadd16, U16MOD] at *; omega

/-- The `j` handler's row bound `(buffer.len() - 1) as u16` never exceeds
`len - 1` on a non-empty buffer. -/
theorem jrows_le {len : Nat} (h : 0 < len) :
    toU16 ((len + (USIZEMOD - 1)) % USIZEMOD) ≤ len - 1 := by
  unfold toU16 U16MOD USIZEMOD; omega

/-- Setting an index of a list to the value it already holds is the identity. -/
theorem set_getElem?_self {α : Type _} :
    ∀ (l : List α) (n : Nat) (a : α), l[n]? = some a → l.set n a = l := by
  intro l
  induction l with
  | nil => intro n a h; simp at h
  | cons x xs ih =>
    intro n a h
    cases n with
    | zero => simp at h; simp [h]
    | succ m => simp at h; simp [ih m a h]

/-- `getElem?` version of `List.getElem_insertIdx_of_lt`. -/
theorem getElem?_insertIdx_of_lt {α : Type _} (l : List α) (x : α) (n k : Nat) (hn : k < n)
    (hk : k < l.length) : (l.insertIdx n x)[k]? = l[k]? := by
  have hk' : k < (l.insertIdx n x).length :=
    hk.trans_le (List.length_le_length_insertIdx _ _ _)
  rw [List.getElem?_eq_getElem hk', List.getElem?_eq_getElem hk,
    List.getElem_insertIdx_of_lt l x n k hn hk]

/-- `getElem?` version of `List.getElem_insertIdx_self`. -/
theorem getElem?_insertIdx_self {α : Type _} (l : List α) (x : α) (n : Nat)
    (hn : n ≤ l.length) : (l.insertIdx n x)[n]? = some x := by
  have hn' : n < (l.insertIdx n x).length := by
    rw [List.length_insertIdx _ _ hn]; omega
  rw [List.getElem?_eq_getElem hn', List.getElem_insertIdx_self l x n hn]

theorem getElem?_some_lt {α : Type _} {l : List α} {n : Nat} {a : α}
    (h : l[n]? = some a) : n < l.length :=
  (List.getElem?_eq_some.mp h).1

/-- The state well-formedness invariant: the buffer is non-empty, the normal
and insert cursor rows index into the buffer, and the normal and insert
cursor columns are `u16`-representable. -/
def Inv (s : State) : Prop :=
  0 < s.buffer.length ∧
  s.cursor_pos.normal.2 < s.buffer.length ∧
  s.cursor_pos.insert.2 < s.buffer.length ∧
  s.cursor_pos.normal.1 < U16MOD ∧
  s.cursor_pos.insert.1 < U16MOD

theorem inv_init (w h : Nat) : Inv (initState w h) := by
  refine ⟨?_, ?_, ?_, ?_, ?_⟩ <;> simp [initState, Inv, U16MOD]

/-- Every successful dispatch step preserves the invariant. -/
theorem inv_step {e : KeyEvent} {s s' : State} (hd : dispatch e s = some s')
    (h : Inv s) : Inv s' := by
  obtain ⟨hlen, hnr, hir, hnc, hic⟩ := h
  unfold dispatch at hd
  split at hd
  · cases hd; exact ⟨hlen, hnr, hir, hnc, hic⟩
  · split at hd
    · -- Normal mode
      unfold normalStep at hd
      split at hd
      · cases hd; exact ⟨hlen, hnr, hir, hnc, hic⟩
      split at hd
      · cases hd
        exact ⟨hlen, hnr, hir, hnc, Nat.lt_of_le_of_lt (Nat.sub_le _ _) hic⟩
      split at hd
      · -- `a`
        split at hd
        · exact Option.noConfusion hd
        · split at hd
          · cases hd; exact ⟨hlen, hnr, hir, hnc, wadd16_lt _ _⟩
          · cases hd; exact ⟨hlen, hnr, hir, hnc, hic⟩
      split at hd
      · cases hd
        exact ⟨hlen, hnr, hir, Nat.lt_of_le_of_lt (Nat.sub_le _ _) hnc,
          Nat.lt_of_le_of_lt (Nat.sub_le _ _) hic⟩
      split at hd
      · -- `l`
        split at hd
        · exact Option.noConfusion hd
        · split at hd
          · cases hd; exact ⟨hlen, hnr, hir, wadd16_lt _ _, wadd16_lt _ _⟩
          · cases hd; exact ⟨hlen, hnr, hir, hnc, hic⟩
      split at hd
      · -- `j`
        split at hd
        case isTrue hlt =>
          cases hd
          refine ⟨hlen, ?_, hir, hnc, hic⟩
          show wadd16 s.cursor_pos.normal.2 1 < s.buffer.length
          have h1 : wadd16 s.cursor_pos.normal.2 1 ≤ s.cursor_pos.normal.2 + 1 :=
            wadd16_le _ _
          have h2 := jrows_le hlen
          omega
        case isFalse => cases hd; exact ⟨hlen, hnr, hir, hnc, hic⟩
      split at hd
      · -- `k`
        split at hd
        · cases hd
          exact ⟨hlen, Nat.lt_of_le_of_lt (Nat.sub_le _ _) hnr, hir, hnc, hic⟩
        · cases hd; exact ⟨hlen, hnr, hir, hnc, hic⟩
      · cases hd; exact ⟨hlen, hnr, hir, hnc, hic⟩
    · -- Command mode
      unfold commandStep at hd
      split at hd
      · split at hd
        · cases hd; exact ⟨hlen, hnr, hir, hnc, hic⟩
        · cases hd; exact ⟨hlen, hnr, hir, hnc, hic⟩
      split at hd
      · cases hd; exact ⟨hlen, hnr, hir, hnc, hic⟩
      split at hd
      · cases hd; exact ⟨hlen, hnr, hir, hnc, hic⟩
      split at hd
      · split at hd
        · cases hd; exact ⟨hlen, hnr, hir, hnc, hic⟩
        · cases hd; exact ⟨hlen, hnr, hir, hnc, hic⟩
      · split at hd
        · cases hd; exact ⟨hlen, hnr, hir, hnc, hic⟩
        · cases hd; exact ⟨hlen, hnr, hir, hnc, hic⟩
    · -- Insert mode
      unfold insertStep at hd
      split at hd
      · cases hd
        exact ⟨hlen, hnr, hir, Nat.lt_of_le_of_lt (Nat.sub_le _ _) hic, hic⟩
      split at hd
      · -- Enter
        split at hd
        · exact Option.noConfusion hd
        case _ line hline =>
          split at hd
          case isTrue hx =>
            cases hd
            have hy : s.cursor_pos.insert.2 < s.buffer.length := getElem?_some_lt hline
            have hlen2 : ((s.buffer.set s.cursor_pos.insert.2
                (line.take s.cursor_pos.insert.1)).insertIdx
                (s.cursor_pos.insert.2 + 1) (line.drop s.cursor_pos.insert.1)).length
                = s.buffer.length + 1 := by
              rw [List.length_insertIdx _ _ (by simp; omega), List.length_set]
            refine ⟨?_, ?_, ?_, ?_, ?_⟩ <;> simp only [hlen2]
            · omega
            · have := wadd16_le s.cursor_pos.insert.2 1; omega
            · have := wadd16_le s.cursor_pos.insert.2 1; omega
            · unfold U16MOD; omega
            · unfold U16MOD; omega
          case isFalse => exact Option.noConfusion hd
      split at hd
      · -- Backspace
        split at hd
        · split at hd
          · exact Option.noConfusion hd
          · cases hd
            refine ⟨?_, ?_, ?_, wsub16_lt _ _, ?_⟩ <;> simp only [List.length_set]
            · exact hlen
            · exact hnr
            · exact hir
            · exact Nat.lt_of_le_of_lt (Nat.sub_le _ _) hic
        split at hd
        case isTrue hy0 =>
          split at hd
          · exact Option.noConfusion hd
          case _ line hline =>
            split at hd
            · exact Option.noConfusion hd
            case _ prev hprev =>
              cases hd
              have hy : s.cursor_pos.insert.2 < s.buffer.length := getElem?_some_lt hline
              have hlen2 : ((s.buffer.eraseIdx s.cursor_pos.insert.2).set
                  (s.cursor_pos.insert.2 - 1) (prev ++ line)).length
                  = s.buffer.length - 1 := by
                rw [List.length_set, List.length_eraseIdx, if_pos hy]
              have htu := toU16_le (s.cursor_pos.insert.2 - 1)
              refine ⟨?_, ?_, ?_, toU16_lt _, toU16_lt _⟩ <;> simp only [hlen2] <;> omega
        · cases hd; exact ⟨hlen, hnr, hir, hnc, hic⟩
      · -- printable fallback / other
        split at hd
        · split at hd
          · exact Option.noConfusion hd
          · cases hd
            refine ⟨?_, ?_, ?_, wadd16_lt _ _, wadd16_lt _ _⟩ <;>
              simp only [List.length_set] <;> assumption
        · cases hd; exact ⟨hlen, hnr, hir, hnc, hic⟩

/-- Every reachable state satisfies the invariant. -/
theorem inv_reachable {w h : Nat} {s : State} (hr : Reachable w h s) : Inv s := by
  induction hr with
  | init => exact inv_init w h
  | step e _ hd ih => exact inv_step hd ih

/-- Folding a successful event sequence preserves reachability. -/
theorem reachable_stepsFold {w h : Nat} :
    ∀ (es : List KeyEvent) (s t : State), Reachable w h s → stepsFold es s = some t →
      Reachable w h t := by
  intro es
  induction es with
  | nil => intro s t hr hf; cases hf; exact hr
  | cons e es ih =>
    intro s t hr hf
    unfold stepsFold at hf
    rw [List.foldlM_cons] at hf
    cases hds : dispatch e s with
    | none => rw [hds] at hf; exact Option.noConfusion hf
    | some s1 =>
      rw [hds] at hf
      exact ih s1 t (Reachable.step e hr hds) hf

theorem option_bind_some {α β : Type _} (a : α) (f : α → Option β) :
    (some a).bind f = f a := rfl

theorem stepsFold_nil (s : State) : stepsFold [] s = some s := rfl

/-- Unfolding a folded event sequence at a cons. -/
theorem stepsFold_cons (e : KeyEvent) (es : List KeyEvent) (s : State) :
    stepsFold (e :: es) s = (dispatch e s).bind (stepsFold es) := by
  unfold stepsFold
  rw [List.foldlM_cons]
  cases dispatch e s <;> simp

/-- Splitting a folded event sequence at an append. -/
theorem stepsFold_append (es fs : List KeyEvent) (s : State) :
    stepsFold (es ++ fs) s = (stepsFold es s).bind (stepsFold fs) := by
  unfold stepsFold
  induction es generalizing s with
  | nil => simp
  | cons e es ih =>
    simp only [List.cons_append, List.foldlM_cons]
    cases dispatch e s with
    | none => simp
    | some s1 => simp [ih s1]

theorem insertStep_char (s : State) (c : Char) (line : List Char)
    (hm : s.mode = .Insert)
    (hline : s.buffer[s.cursor_pos.insert.2]? = some line) :
    dispatch (charKey c) s = some { s with
      buffer := s.buffer.set s.cursor_pos.insert.2
        (line.insertIdx (min s.cursor_pos.insert.1 line.length) c),
      cursor_pos := { s.cursor_pos with
        insert := (wadd16 s.cursor_pos.insert.1 1, s.cursor_pos.insert.2),
        normal := (wadd16 s.cursor_pos.normal.1 1, s.cursor_pos.normal.2) } } := by
  obtain ⟨run, wd, ht, mo, cur, sb, cmd, buf⟩ := s
  simp only at hm hline
  subst hm
  unfold dispatch
  rw [if_neg (by simp [charKey])]
  show insertStep (charKey c) _ = _
  unfold insertStep
  rw [if_neg (by simp [charKey]), if_neg (by simp [charKey]), if_neg (by simp [charKey])]
  show (match buf[cur.insert.2]? with
        | Option.none => none
        | some line => _ : Option State) = _
  rw [hline]

theorem insertStep_enter (s : State) (line : List Char)
    (hm : s.mode = .Insert)
    (hline : s.buffer[s.cursor_pos.insert.2]? = some line)
    (hx : s.cursor_pos.insert.1 ≤ line.length) :
    dispatch keyEnter s = some { s with
      buffer := (s.buffer.set s.cursor_pos.insert.2 (line.take s.cursor_pos.insert.1)).insertIdx
                  (s.cursor_pos.insert.2 + 1) (line.drop s.cursor_pos.insert.1),
      cursor_pos := { s.cursor_pos with
        normal := (0, wadd16 s.cursor_pos.insert.2 1),
        insert := (0, wadd16 s.cursor_pos.insert.2 1) } } := by
  obtain ⟨run, wd, ht, mo, cur, sb, cmd, buf⟩ := s
  simp only at hm hline hx
  subst hm
  unfold dispatch
  rw [if_neg (by simp [keyEnter])]
  show insertStep keyEnter _ = _
  unfold insertStep
  rw [if_neg (by simp [keyEnter]), if_pos (show keyEnter = (⟨.enter, .none⟩ : KeyEvent) from rfl)]
  show (match buf[cur.insert.2]? with
        | Option.none => none
        | some line => _ : Option State) = _
  rw [hline]
  dsimp only
  rw [if_pos hx]

theorem insertStep_bs_pos (s : State) (line : List Char)
    (hm : s.mode = .Insert) (hx : 0 < s.cursor_pos.insert.1)
    (hline : s.buffer[s.cursor_pos.insert.2]? = some line) :
    dispatch keyBS s = some { s with
      buffer := s.buffer.set s.cursor_pos.insert.2
        (if s.cursor_pos.insert.1 - 1 < line.length
         then line.eraseIdx (s.cursor_pos.insert.1 - 1) else line),
      cursor_pos := { s.cursor_pos with
        normal := (wsub16 s.cursor_pos.normal.1 1, s.cursor_pos.normal.2),
        insert := (s.cursor_pos.insert.1 - 1, s.cursor_pos.insert.2) } } := by
  obtain ⟨run, wd, ht, mo, cur, sb, cmd, buf⟩ := s
  simp only at hm hx hline
  subst hm
  unfold dispatch
  rw [if_neg (by simp [keyBS])]
  show insertStep keyBS _ = _
  unfold insertStep
  rw [if_neg (by simp [keyBS]), if_neg (by simp [keyBS]),
    if_pos (show keyBS = (⟨.backspace, .none⟩ : KeyEvent) from rfl), if_pos hx]
  show (match buf[cur.insert.2]? with
        | Option.none => none
        | some line => _ : Option State) = _
  rw [hline]

theorem insertStep_bs_merge (s : State) (line prev : List Char)
    (hm : s.mode = .Insert) (hx : s.cursor_pos.insert.1 = 0) (hy : 0 < s.cursor_pos.insert.2)
    (hline : s.buffer[s.cursor_pos.insert.2]? = some line)
    (hprev : (s.buffer.eraseIdx s.cursor_pos.insert.2)[s.cursor_pos.insert.2 - 1]? = some prev) :
    dispatch keyBS s = some { s with
      buffer := (s.buffer.eraseIdx s.cursor_pos.insert.2).set
        (s.cursor_pos.insert.2 - 1) (prev ++ line),
      cursor_pos := { s.cursor_pos with
        normal := (toU16 prev.length, toU16 (s.cursor_pos.insert.2 - 1)),
        insert := (toU16 prev.length, toU16 (s.cursor_pos.insert.2 - 1)) } } := by
  obtain ⟨run, wd, ht, mo, cur, sb, cmd, buf⟩ := s
  simp only at hm hx hy hline hprev
  subst hm
  unfold dispatch
  rw [if_neg (by simp [keyBS])]
  show insertStep keyBS _ = _
  unfold insertStep
  rw [if_neg (by simp [keyBS]), if_neg (by simp [keyBS]),
    if_pos (show keyBS = (⟨.backspace, .none⟩ : KeyEvent) from rfl),
    if_neg (by simp [hx]), if_pos hy]
  show (match buf[cur.insert.2]? with
        | Option.none => none
        | some line => _ : Option State) = _
  rw [hline]
  dsimp only
  show (match (buf.eraseIdx cur.insert.2)[cur.insert.2 - 1]? with
        | Option.none => none
        | some prev => _ : Option State) = _
  rw [hprev]

theorem insertStep_bs_zero (s : State)
    (hm : s.mode = .Insert) (hx : s.cursor_pos.insert.1 = 0) (hy : s.cursor_pos.insert.2 = 0) :
    dispatch keyBS s = some s := by
  obtain ⟨run, wd, ht, mo, cur, sb, cmd, buf⟩ := s
  simp only at hm hx hy
  subst hm
  unfold dispatch
  rw [if_neg (by simp [keyBS])]
  show insertStep keyBS _ = _
  unfold insertStep
  rw [if_neg (by simp [keyBS]), if_neg (by simp [keyBS]),
    if_pos (show keyBS = (⟨.backspace, .none⟩ : KeyEvent) from rfl),
    if_neg (by simp [hx]), if_neg (by simp [hy])]

/-- The state after pressing `a` in the initial state: the empty line makes
the handler's `u16` computation `length - 1` underflow to 65535, so the
insert column is pushed to 1, past the end of the empty line. -/
def sAfterA : State :=
  { running := true, width := 80, height := 24, mode := .Insert,
    cursor_pos := { normal := (0, 0), command := (1, 23), insert := (1, 0) },
    status_bar := ["INSERT"], command := [], buffer := [[]] }

/-- The state after pressing `i` in the initial state. -/
def sAfterI : State :=
  { running := true, width := 80, height := 24, mode := .Insert,
    cursor_pos := { normal := (0, 0), command := (1, 23), insert := (0, 0) },
    status_bar := ["INSERT"], command := [], buffer := [[]] }

/-- Key sequence producing a column/row desynchronisation: type "abc", leave
insert mode, split the line, navigate back up and right, then press `j`. -/
def c1Keys : List KeyEvent :=
  [keyI, charKey 'a', charKey 'b', charKey 'c', keyEsc, keyA, keyEnter, keyEsc,
   keyK, keyL, keyL, keyJ]

/-- The state reached by `c1Keys`: the normal cursor sits at column 2 of the
empty second line. -/
def sC1 : State :=
  { running := true, width := 80, height := 24, mode := .Normal,
    cursor_pos := { normal := (2, 1), command := (1, 23), insert := (2, 1) },
    status_bar := ["NORMAL"], command := [], buffer := [['a', 'b', 'c'], []] }

/-- Claim C1 (counterexample): the claimed column bound fails on reachable
states.  In the state reached by `c1Keys` the normal cursor's column is 2
while its row's line is empty (`j`/`k` do not re-clamp the column); moreover
already in the initial state the command cursor pair's row is `height - 1 =
23`, not a valid buffer row. -/
theorem c1_counterexample :
    Reachable 80 24 sC1 ∧
    sC1.cursor_pos.normal = (2, 1) ∧
    sC1.buffer[(1 : Nat)]? = some [] ∧
    ¬ sC1.cursor_pos.normal.1 ≤ (sC1.buffer[(1 : Nat)]?.getD []).length ∧
    (initState 80 24).cursor_pos.command.2 = 23 ∧
    ¬ (initState 80 24).cursor_pos.command.2 < (initState 80 24).buffer.length := by
  refine ⟨reachable_stepsFold c1Keys (initState 80 24) sC1 Reachable.init (by rfl),
    rfl, rfl, by decide, rfl, by decide⟩

/-- Claim C1 (amended): in every reachable state the normal and insert
cursor rows are valid buffer indices (`0 <= row < line count`); the column
bound `column <= line length` is not an invariant (vertical moves do not
re-clamp the column and the `a`/`l` underflow can push a column past the end
of an empty line), and the command cursor pair is a screen coordinate that
never satisfies the row bound on taller terminals. -/
theorem c1_rows_valid (w h : Nat) (s : State) (hr : Reachable w h s) :
    s.cursor_pos.normal.2 < s.buffer.length ∧
    s.cursor_pos.insert.2 < s.buffer.length := by
  have hi := inv_reachable hr
  exact ⟨hi.2.1, hi.2.2.1⟩

/-- Witness for C1 (amended) at the initial state. -/
theorem c1_rows_valid_witness :
    (initState 80 24).cursor_pos.normal.2 < (initState 80 24).buffer.length ∧
    (initState 80 24).cursor_pos.insert.2 < (initState 80 24).buffer.length :=
  c1_rows_valid 80 24 (initState 80 24) Reachable.init

/-- Claim C2 (counterexample): dispatch is not free of underflow and
out-of-bounds accesses.  From the initial state, `a` runs the `u16`
computation `length - 1` on the empty line — `wsub16 (toU16 0) 1 = 65535`,
an underflow — which pushes the insert column to 1 on the empty line; the
reachable state `sAfterA` then makes Enter call `split_off(1)` on a
zero-length line, an out-of-bounds access (modeled by `dispatch = none`). -/
theorem c2_counterexample :
    dispatch keyA (initState 80 24) = some sAfterA ∧
    Reachable 80 24 sAfterA ∧
    wsub16 (toU16 0) 1 = 65535 ∧
    sAfterA.cursor_pos.insert.1 = 1 ∧
    sAfterA.buffer = [[]] ∧
    dispatch keyEnter sAfterA = none := by
  refine ⟨by rfl, Reachable.step keyA Reachable.init (by rfl), by decide, rfl, rfl, by rfl⟩

/-- Claim C2 (amended): the clamping that actually exists works — the
Insert-mode printable fallback clamps its insertion index with `min`, so it
never faults and preserves the buffer shape for any state with a valid
insert row; and the `h` handler decrements both columns by saturating
subtraction.  But the `a`/`l` handlers' `length - 1` underflows on empty
lines and the insert-Backspace normal-column decrement wraps below zero, so
a later Enter can attempt an out-of-bounds `split_off` (see the
counterexample). -/
theorem c2_clamped_ops :
    (∀ (s : State) (c : Char) (line : List Char), s.mode = .Insert →
      s.buffer[s.cursor_pos.insert.2]? = some line →
      ∃ s', dispatch (charKey c) s = some s' ∧
        s'.buffer.length = s.buffer.length ∧
        min s.cursor_pos.insert.1 line.length ≤ line.length) ∧
    (∀ s : State, s.mode = .Normal →
      ∃ s', dispatch (⟨.char 'h', .none⟩ : KeyEvent) s = some s' ∧
        s'.cursor_pos.normal.1 = s.cursor_pos.normal.1 - 1 ∧
        s'.cursor_pos.insert.1 = s.cursor_pos.insert.1 - 1) := by
  constructor
  · intro s c line hm hline
    refine ⟨_, insertStep_char s c line hm hline, ?_, Nat.min_le_right _ _⟩
    simp
  · intro s hm
    obtain ⟨run, wd, ht, mo, cur, sb, cmd, buf⟩ := s
    simp only at hm
    subst hm
    refine ⟨{ running := run, width := wd, height := ht, mode := .Normal,
              cursor_pos := { normal := (cur.normal.1 - 1, cur.normal.2),
                              command := cur.command,
                              insert := (cur.insert.1 - 1, cur.insert.2) },
              status_bar := sb, command := cmd, buffer := buf }, ?_, rfl, rfl⟩
    unfold dispatch
    rw [if_neg (by decide)]
    show normalStep _ _ = _
    unfold normalStep
    rw [if_neg (by decide), if_neg (by decide), if_neg (by decide), if_pos rfl]

/-- Witness for C2 (amended): both parts at concrete states. -/
theorem c2_clamped_ops_witness :
    (∃ s', dispatch (charKey 'x') sAfterI = some s' ∧
      s'.buffer.length = sAfterI.buffer.length ∧
      min sAfterI.cursor_pos.insert.1 ([] : List Char).length ≤ ([] : List Char).length) ∧
    (∃ s', dispatch (⟨.char 'h', .none⟩ : KeyEvent) (initState 80 24) = some s' ∧
      s'.cursor_pos.normal.1 = (initState 80 24).cursor_pos.normal.1 - 1 ∧
      s'.cursor_pos.insert.1 = (initState 80 24).cursor_pos.insert.1 - 1) :=
  ⟨c2_clamped_ops.1 sAfterI 'x' [] rfl rfl,
   c2_clamped_ops.2 (initState 80 24) rfl⟩

/-- Claim C3: the buffer of every reachable state has at least one line, and
the initial buffer is a single empty line. -/
theorem c3_buffer_nonempty (w h : Nat) (s : State) (hr : Reachable w h s) :
    0 < s.buffer.length ∧ (initState w h).buffer = [[]] :=
  ⟨(inv_reachable hr).1, rfl⟩

/-- Witness for C3 at the initial state. -/
theorem c3_buffer_nonempty_witness :
    0 < (initState 80 24).buffer.length ∧ (initState 80 24).buffer = [[]] :=
  c3_buffer_nonempty 80 24 (initState 80 24) Reachable.init

/-- The result of pressing `l` in the initial state. -/
def sAfterL : State :=
  { running := true, width := 80, height := 24, mode := .Normal,
    cursor_pos := { normal := (1, 0), command := (1, 23), insert := (1, 0) },
    status_bar := ["NORMAL"], command := [], buffer := [[]] }

/-- Claim C9 (counterexample): on the empty line of the initial state, the
normal cursor is at the only (hence last) column, 0 = length - 1 in
truncated arithmetic, yet `l` advances the column to 1, moving the cursor
past the last character — the guard `column < length - 1` underflows in
`u16` for `length = 0`. -/
theorem c9_counterexample :
    Reachable 80 24 (initState 80 24) ∧
    (initState 80 24).cursor_pos.normal.1 = 0 ∧
    (initState 80 24).buffer[(0 : Nat)]? = some [] ∧
    (initState 80 24).cursor_pos.normal.1 = ([] : List Char).length - 1 ∧
    dispatch keyL (initState 80 24) = some sAfterL ∧
    sAfterL.cursor_pos.normal.1 = 1 ∧
    (1 : Nat) ≠ 0 :=
  ⟨Reachable.init, rfl, rfl, rfl, by rfl, rfl, by decide⟩

/-- Claim C9 (amended): on every non-empty line, pressing `l` with the
normal cursor at the last column (`length - 1`) leaves the whole state — in
particular the normal cursor column — unchanged; the policy fails only on
empty lines, where the `u16` underflow advances the cursor. -/
theorem c9_l_at_last_column (s : State) (line : List Char)
    (hm : s.mode = .Normal)
    (hline : s.buffer[s.cursor_pos.normal.2]? = some line)
    (hne : 0 < line.length)
    (hcol : s.cursor_pos.normal.1 = line.length - 1) :
    dispatch keyL s = some s := by
  obtain ⟨run, wd, ht, mo, cur, sb, cmd, buf⟩ := s
  simp only at hm hline hcol
  subst hm
  unfold dispatch
  rw [if_neg (by decide)]
  show normalStep keyL _ = _
  unfold normalStep
  rw [if_neg (by decide), if_neg (by decide), if_neg (by decide), if_neg (by decide),
    if_pos (show keyL = (⟨.char 'l', .none⟩ : KeyEvent) from rfl)]
  show (match buf[cur.normal.2]? with
        | Option.none => none
        | some line => _ : Option State) = _
  rw [hline]
  dsimp only
  rw [if_neg ?hguard]
  case hguard =>
    rw [hcol]
    simp only [wsub16, toU16, U16MOD]
    omega

/-- A concrete Normal-mode state on the one-character line "b". -/
def sNormB : State :=
  { running := true, width := 80, height := 24, mode := .Normal,
    cursor_pos := { normal := (0, 0), command := (1, 23), insert := (0, 0) },
    status_bar := ["NORMAL"], command := [], buffer := [['b']] }

/-- Witness for C9 (amended): `l` at the last column of "b" is a no-op. -/
theorem c9_l_at_last_column_witness : dispatch keyL sNormB = some sNormB :=
  c9_l_at_last_column sNormB ['b'] rfl rfl (by decide) rfl

/-- Claim C10: in Normal mode, `j` and `k` change at most the normal
cursor's row — the normal column, the insert and command pairs, the buffer,
the mode, the command string, the status bar and the running flag are all
unchanged. -/
theorem c10_jk_frame (s : State) (hm : s.mode = .Normal) :
    (∃ s', dispatch keyJ s = some s' ∧
      s'.cursor_pos.normal.1 = s.cursor_pos.normal.1 ∧
      s'.cursor_pos.insert = s.cursor_pos.insert ∧
      s'.cursor_pos.command = s.cursor_pos.command ∧
      s'.buffer = s.buffer ∧ s'.mode = s.mode ∧ s'.command = s.command ∧
      s'.status_bar = s.status_bar ∧ s'.running = s.running) ∧
    (∃ s', dispatch keyK s = some s' ∧
      s'.cursor_pos.normal.1 = s.cursor_pos.normal.1 ∧
      s'.cursor_pos.insert = s.cursor_pos.insert ∧
      s'.cursor_pos.command = s.cursor_pos.command ∧
      s'.buffer = s.buffer ∧ s'.mode = s.mode ∧ s'.command = s.command ∧
      s'.status_bar = s.status_bar ∧ s'.running = s.running) := by
  obtain ⟨run, wd, ht, mo, cur, sb, cmd, buf⟩ := s
  simp only at hm
  subst hm
  constructor
  · by_cases hg : cur.normal.2 < toU16 ((buf.length + (USIZEMOD - 1)) % USIZEMOD)
    · refine ⟨{ running := run, width := wd, height := ht, mode := .Normal,
                cursor_pos := { normal := (cur.normal.1, wadd16 cur.normal.2 1),
                                command := cur.command, insert := cur.insert },
                status_bar := sb, command := cmd, buffer := buf },
              ?_, rfl, rfl, rfl, rfl, rfl, rfl, rfl, rfl⟩
      unfold dispatch
      rw [if_neg (by decide)]
      show normalStep keyJ _ = _
      unfold normalStep
      rw [if_neg (by decide), if_neg (by decide), if_neg (by decide), if_neg (by decide),
        if_neg (by decide), if_pos (show keyJ = (⟨.char 'j', .none⟩ : KeyEvent) from rfl),
        if_pos hg]
    · refine ⟨State.mk run wd ht .Normal cur sb cmd buf,
              ?_, rfl, rfl, rfl, rfl, rfl, rfl, rfl, rfl⟩
      unfold dispatch
      rw [if_neg (by decide)]
      show normalStep keyJ _ = _
      unfold normalStep
      rw [if_neg (by decide), if_neg (by decide), if_neg (by decide), if_neg (by decide),
        if_neg (by decide), if_pos (show keyJ = (⟨.char 'j', .none⟩ : KeyEvent) from rfl),
        if_neg hg]
  · by_cases hg : cur.normal.2 > 0
    · refine ⟨{ running := run, width := wd, height := ht, mode := .Normal,
                cursor_pos := { normal := (cur.normal.1, cur.normal.2 - 1),
                                command := cur.command, insert := cur.insert },
                status_bar := sb, command := cmd, buffer := buf },
              ?_, rfl, rfl, rfl, rfl, rfl, rfl, rfl, rfl⟩
      unfold dispatch
      rw [if_neg (by decide)]
      show normalStep keyK _ = _
      unfold normalStep
      rw [if_neg (by decide), if_neg (by decide), if_neg (by decide), if_neg (by decide),
        if_neg (by decide), if_neg (by decide),
        if_pos (show keyK = (⟨.char 'k', .none⟩ : KeyEvent) from rfl), if_pos hg]
    · refine ⟨State.mk run wd ht .Normal cur sb cmd buf,
              ?_, rfl, rfl, rfl, rfl, rfl, rfl, rfl, rfl⟩
      unfold dispatch
      rw [if_neg (by decide)]
      show normalStep keyK _ = _
      unfold normalStep
      rw [if_neg (by decide), if_neg (by decide), if_neg (by decide), if_neg (by decide),
        if_neg (by decide), if_neg (by decide),
        if_pos (show keyK = (⟨.char 'k', .none⟩ : KeyEvent) from rfl), if_neg hg]

/-- An Insert-mode state whose insert row is 65535 (the largest `u16`) in a
65537-line buffer of empty lines. -/
def sWrap : State :=
  { running := true, width := 80, height := 24, mode := .Insert,
    cursor_pos := { normal := (0, 0), command := (1, 23), insert := (0, 65535) },
    status_bar := ["INSERT"], command := [], buffer := List.replicate 65537 [] }

/-- Claim C4 (counterexample): at insert cursor (0, 65535) — column 0, which
is within the (empty) line at row 65535 — Enter wraps the `u16` row to 0
instead of advancing it to 65536, so "the row advances by one" fails at the
16-bit boundary. -/
theorem c4_counterexample :
    sWrap.mode = .Insert ∧
    sWrap.cursor_pos.insert = (0, 65535) ∧
    sWrap.buffer[sWrap.cursor_pos.insert.2]? = some [] ∧
    (dispatch keyEnter sWrap).map (fun t => t.cursor_pos.insert.2) = some 0 ∧
    (0 : Nat) ≠ 65535 + 1 := by
  have hb : sWrap.buffer[sWrap.cursor_pos.insert.2]? = some [] := by
    show (List.replicate 65537 ([] : List Char))[(65535 : Nat)]? = some []
    rw [List.getElem?_replicate]
    norm_num
  refine ⟨rfl, rfl, hb, ?_, by decide⟩
  rw [insertStep_enter sWrap [] rfl hb (by decide)]
  show some (wadd16 65535 1) = some 0
  decide

/-- Claim C4 (amended): in Insert mode with insert cursor (x, y), x within
the line at row y and y + 1 representable in `u16`, Enter splits the line at
column x — the prefix stays at row y, the suffix becomes the new row y + 1,
the buffer grows by one line, and both the insert and normal cursor pairs
become (0, y + 1). -/
theorem c4_enter_splits (s : State) (x y : Nat) (line : List Char)
    (hm : s.mode = .Insert) (hins : s.cursor_pos.insert = (x, y))
    (hline : s.buffer[y]? = some line) (hx : x ≤ line.length)
    (hy16 : y + 1 < U16MOD) :
    ∃ s', dispatch keyEnter s = some s' ∧
      s'.buffer[y]? = some (line.take x) ∧
      s'.buffer[(y + 1 : Nat)]? = some (line.drop x) ∧
      s'.buffer.length = s.buffer.length + 1 ∧
      s'.cursor_pos.insert = (0, y + 1) ∧
      s'.cursor_pos.normal = (0, y + 1) := by
  have hy : y < s.buffer.length := getElem?_some_lt hline
  have hline' : s.buffer[s.cursor_pos.insert.2]? = some line := by rw [hins]; exact hline
  have hx' : s.cursor_pos.insert.1 ≤ line.length := by rw [hins]; exact hx
  have hstep := insertStep_enter s line hm hline' hx'
  rw [hins] at hstep
  refine ⟨_, hstep, ?_, ?_, ?_, ?_, ?_⟩
  · show ((s.buffer.set y (line.take x)).insertIdx (y + 1) (line.drop x))[y]? = _
    rw [getElem?_insertIdx_of_lt _ _ _ _ (Nat.lt_succ_self y) (by simpa using hy)]
    exact List.getElem?_set_eq_of_lt _ (by simpa using hy)
  · show ((s.buffer.set y (line.take x)).insertIdx (y + 1) (line.drop x))[(y + 1 : Nat)]? = _
    exact getElem?_insertIdx_self _ _ _ (by simpa using hy)
  · show ((s.buffer.set y (line.take x)).insertIdx (y + 1) (line.drop x)).length = _
    rw [List.length_insertIdx _ _ (by simpa using hy), List.length_set]
  · show (0, wadd16 y 1) = (0, y + 1)
    rw [wadd16_eq_of_lt hy16]
  · show (0, wadd16 y 1) = (0, y + 1)
    rw [wadd16_eq_of_lt hy16]

/-- The Insert-mode state of the spec's Scenario B: line "hello", insert
cursor at its end. -/
def sHello : State :=
  { running := true, width := 80, height := 24, mode := .Insert,
    cursor_pos := { normal := (4, 0), command := (1, 23), insert := (5, 0) },
    status_bar := ["INSERT"], command := [], buffer := [chars "hello"] }

/-- Witness for C4 (amended): Scenario B — Enter at the end of "hello"
yields lines "hello" and "" with both cursors at (0, 1). -/
theorem c4_enter_splits_witness :
    ∃ s', dispatch keyEnter sHello = some s' ∧
      s'.buffer[(0 : Nat)]? = some ((chars "hello").take 5) ∧
      s'.buffer[(1 : Nat)]? = some ((chars "hello").drop 5) ∧
      s'.buffer.length = sHello.buffer.length + 1 ∧
      s'.cursor_pos.insert = (0, 1) ∧
      s'.cursor_pos.normal = (0, 1) :=
  c4_enter_splits sHello 5 0 (chars "hello") rfl rfl rfl (by decide) (by decide)

/-- An Insert-mode state on line "b" with insert column 1 but normal column
0 (reachable: `i`, type 'b', Escape, `a` produces exactly this shape). -/
def sBspB : State :=
  { running := true, width := 80, height := 24, mode := .Insert,
    cursor_pos := { normal := (0, 0), command := (1, 23), insert := (1, 0) },
    status_bar := ["INSERT"], command := [], buffer := [['b']] }

/-- The result of Backspace in `sBspB`: the character is deleted and the
insert column decrements, but the normal column wraps from 0 to 65535. -/
def sBspB2 : State :=
  { running := true, width := 80, height := 24, mode := .Insert,
    cursor_pos := { normal := (65535, 0), command := (1, 23), insert := (0, 0) },
    status_bar := ["INSERT"], command := [], buffer := [[]] }

/-- Claim C5 (counterexample): in `sBspB` (Insert mode, insert column 1 > 0)
Backspace deletes the character and decrements the insert column, but does
NOT decrement "the column of both cursor pairs by one": the normal column
wraps from 0 to 65535. -/
theorem c5_counterexample :
    sBspB.mode = .Insert ∧
    0 < sBspB.cursor_pos.insert.1 ∧
    dispatch keyBS sBspB = some sBspB2 ∧
    sBspB.cursor_pos.normal.1 = 0 ∧
    sBspB2.cursor_pos.normal.1 = 65535 ∧
    ¬ sBspB2.cursor_pos.normal.1 + 1 = sBspB.cursor_pos.normal.1 := by
  refine ⟨rfl, by decide, by rfl, rfl, rfl, by decide⟩

/-- Claim C5 (amended): Backspace in Insert mode with insert cursor (x, y)
on line `line` behaves by cases: for x > 0 with x - 1 inside the line it
deletes the character before the column, decrements the insert column, and
decrements the normal column modulo 2^16 (wrapping to 65535 when it is 0);
for x > 0 with x - 1 at or past the end of the line nothing is deleted but
the columns still move; for x = 0, y > 0 it merges the line into the
previous one, removing it and moving both pairs to the previous line's
original length (as `u16`) and row y - 1; for x = 0, y = 0 it is a no-op. -/
theorem c5_backspace_cases (s : State) (x y : Nat) (line : List Char)
    (hm : s.mode = .Insert) (hins : s.cursor_pos.insert = (x, y))
    (hline : s.buffer[y]? = some line) :
    (0 < x → x - 1 < line.length →
      ∃ s', dispatch keyBS s = some s' ∧
        s'.buffer = s.buffer.set y (line.take (x - 1) ++ line.drop x) ∧
        s'.cursor_pos.insert = (x - 1, y) ∧
        s'.cursor_pos.normal.1 = wsub16 s.cursor_pos.normal.1 1 ∧
        s'.cursor_pos.normal.2 = s.cursor_pos.normal.2) ∧
    (0 < x → line.length ≤ x - 1 →
      ∃ s', dispatch keyBS s = some s' ∧
        s'.buffer = s.buffer ∧
        s'.cursor_pos.insert = (x - 1, y) ∧
        s'.cursor_pos.normal.1 = wsub16 s.cursor_pos.normal.1 1 ∧
        s'.cursor_pos.normal.2 = s.cursor_pos.normal.2) ∧
    (x = 0 → 0 < y → ∀ prev : List Char, s.buffer[(y - 1 : Nat)]? = some prev →
      ∃ s', dispatch keyBS s = some s' ∧
        s'.buffer[(y - 1 : Nat)]? = some (prev ++ line) ∧
        s'.buffer.length = s.buffer.length - 1 ∧
        s'.cursor_pos.insert = (toU16 prev.length, toU16 (y - 1)) ∧
        s'.cursor_pos.normal = (toU16 prev.length, toU16 (y - 1))) ∧
    (x = 0 → y = 0 → dispatch keyBS s = some s) := by
  have hline' : s.buffer[s.cursor_pos.insert.2]? = some line := by rw [hins]; exact hline
  have hy : y < s.buffer.length := getElem?_some_lt hline
  refine ⟨?_, ?_, ?_, ?_⟩
  · intro hx hdel
    have hstep := insertStep_bs_pos s line hm (by rw [hins]; exact hx) hline'
    rw [hins] at hstep
    refine ⟨_, hstep, ?_, rfl, rfl, rfl⟩
    show s.buffer.set y (if x - 1 < line.length then line.eraseIdx (x - 1) else line) = _
    rw [if_pos hdel, List.eraseIdx_eq_take_drop_succ, Nat.sub_add_cancel hx]
  · intro hx hdel
    have hstep := insertStep_bs_pos s line hm (by rw [hins]; exact hx) hline'
    rw [hins] at hstep
    refine ⟨_, hstep, ?_, rfl, rfl, rfl⟩
    show s.buffer.set y (if x - 1 < line.length then line.eraseIdx (x - 1) else line) = _
    rw [if_neg (by omega)]
    exact set_getElem?_self _ _ _ hline
  · intro hx hy0 prev hprev
    have hprev' : (s.buffer.eraseIdx s.cursor_pos.insert.2)[s.cursor_pos.insert.2 - 1]?
        = some prev := by
      rw [hins]
      show (s.buffer.eraseIdx y)[(y - 1 : Nat)]? = some prev
      rw [List.getElem?_eraseIdx_of_lt _ _ _ (by omega)]
      exact hprev
    have hstep := insertStep_bs_merge s line prev hm (by rw [hins]; exact hx)
      (by rw [hins]; exact hy0) hline' hprev'
    rw [hins] at hstep
    refine ⟨_, hstep, ?_, ?_, rfl, rfl⟩
    · show ((s.buffer.eraseIdx y).set (y - 1) (prev ++ line))[(y - 1 : Nat)]? = _
      refine List.getElem?_set_eq_of_lt _ ?_
      rw [List.length_eraseIdx, if_pos hy]
      omega
    · show ((s.buffer.eraseIdx y).set (y - 1) (prev ++ line)).length = _
      rw [List.length_set, List.length_eraseIdx, if_pos hy]
  · intro hx hy0
    exact insertStep_bs_zero s hm (by rw [hins]; exact hx) (by rw [hins]; exact hy0)

/-- Witness for C5 (amended): all four cases at concrete states — the
deleting case in `sBspB`, and the merge and no-op cases. -/
theorem c5_backspace_cases_witness :
    ∃ s', dispatch keyBS sBspB = some s' ∧
      s'.buffer = sBspB.buffer.set 0 ((['b'].take 0) ++ (['b'].drop 1)) ∧
      s'.cursor_pos.insert = (0, 0) ∧
      s'.cursor_pos.normal.1 = wsub16 sBspB.cursor_pos.normal.1 1 ∧
      s'.cursor_pos.normal.2 = sBspB.cursor_pos.normal.2 :=
  (c5_backspace_cases sBspB 1 0 ['b'] rfl rfl rfl).1 (by decide) (by decide)

/-- The Command-mode state reached from the initial state by pressing `:`
then typing `q`. -/
def sCmdQ : State :=
  { running := true, width := 80, height := 24, mode := .Command,
    cursor_pos := { normal := (0, 0), command := (2, 23), insert := (0, 0) },
    status_bar := ["COMMAND"], command := chars ":q", buffer := [[]] }

/-- The state after pressing Enter in `sCmdQ`: only the running flag
changes — the mode stays Command. -/
def sCmdQDone : State :=
  { running := false, width := 80, height := 24, mode := .Command,
    cursor_pos := { normal := (0, 0), command := (2, 23), insert := (0, 0) },
    status_bar := ["COMMAND"], command := chars ":q", buffer := [[]] }

/-- The Command-mode state reached from the initial state by pressing `:`
then typing `z`. -/
def sCmdZ : State :=
  { running := true, width := 80, height := 24, mode := .Command,
    cursor_pos := { normal := (0, 0), command := (2, 23), insert := (0, 0) },
    status_bar := ["COMMAND"], command := chars ":z", buffer := [[]] }

/-- The Command-mode state reached from the initial state by pressing `:`
alone. -/
def sCmdColon : State :=
  { running := true, width := 80, height := 24, mode := .Command,
    cursor_pos := { normal := (0, 0), command := (1, 23), insert := (0, 0) },
    status_bar := ["COMMAND"], command := chars ":", buffer := [[]] }

/-- Claim C6: in Command mode, Enter evaluates the command string verbatim —
on ":q" exactly the running flag is set to false; on any other string the
running flag is untouched, the command string becomes the literal
"Unknown command.", the mode reverts to Normal, and the command cursor
column resets to 1. -/
theorem c6_command_enter (s : State) (hm : s.mode = .Command) :
    (s.command = chars ":q" → dispatch keyEnter s = some { s with running := false }) ∧
    (s.command ≠ chars ":q" →
      ∃ s', dispatch keyEnter s = some s' ∧ s'.running = s.running ∧
        s'.command = chars "Unknown command." ∧ s'.mode = .Normal ∧
        s'.cursor_pos.command.1 = 1) := by
  obtain ⟨run, wd, ht, mo, cur, sb, cmd, buf⟩ := s
  simp only at hm
  subst hm
  constructor
  · intro hq
    simp only at hq
    unfold dispatch
    rw [if_neg (by decide)]
    show commandStep keyEnter _ = _
    unfold commandStep
    rw [if_neg (by decide), if_neg (by decide), if_neg (by decide),
      if_pos (show keyEnter = (⟨.enter, .none⟩ : KeyEvent) from rfl)]
    dsimp only
    rw [if_pos hq]
  · intro hq
    simp only at hq
    refine ⟨{ running := run, width := wd, height := ht, mode := .Normal,
              cursor_pos := { normal := cur.normal, command := (1, cur.command.2),
                              insert := cur.insert },
              status_bar := sb.set 0 "NORMAL", command := chars "Unknown command.",
              buffer := buf }, ?_, rfl, rfl, rfl, rfl⟩
    unfold dispatch
    rw [if_neg (by decide)]
    show commandStep keyEnter _ = _
    unfold commandStep
    rw [if_neg (by decide), if_neg (by decide), if_neg (by decide),
      if_pos (show keyEnter = (⟨.enter, .none⟩ : KeyEvent) from rfl)]
    dsimp only
    rw [if_neg hq]

/-- Witness for C6: Scenario D (":q" stops the loop, in Command mode) and
Scenario E (":z" is rejected with "Unknown command." in Normal mode). -/
theorem c6_command_enter_witness :
    dispatch keyEnter sCmdQ = some { sCmdQ with running := false } ∧
    ∃ s', dispatch keyEnter sCmdZ = some s' ∧ s'.running = sCmdZ.running ∧
      s'.command = chars "Unknown command." ∧ s'.mode = .Normal ∧
      s'.cursor_pos.command.1 = 1 :=
  ⟨(c6_command_enter sCmdQ rfl).1 rfl, (c6_command_enter sCmdZ rfl).2 (by decide)⟩

/-- Claim C7 (counterexample): executing ":q" via Enter does NOT leave the
editor in Normal mode — the handler only clears the running flag, so the
mode stays Command in the reachable state obtained by pressing `:`, `q`,
Enter. -/
theorem c7_counterexample :
    Reachable 80 24 sCmdQ ∧
    sCmdQ.mode = .Command ∧
    sCmdQ.command = chars ":q" ∧
    dispatch keyEnter sCmdQ = some sCmdQDone ∧
    sCmdQDone.mode = .Command ∧
    Mode.Command ≠ Mode.Normal := by
  refine ⟨reachable_stepsFold [⟨.char ':', .none⟩, charKey 'q'] (initState 80 24) sCmdQ
    Reachable.init (by rfl), rfl, rfl, by rfl, rfl, by decide⟩

/-- Claim C7 (amended): in Command mode, Escape, Ctrl-C, a Backspace that
empties the command string, and Enter on any command other than ":q" all
leave the editor in Normal mode; Enter on ":q" instead keeps the mode
Command and clears the running flag (the process exits). -/
theorem c7_command_to_normal (s : State) (hm : s.mode = .Command) :
    (∃ s', dispatch keyEsc s = some s' ∧ s'.mode = .Normal) ∧
    (∃ s', dispatch keyCtrlC s = some s' ∧ s'.mode = .Normal) ∧
    (s.command.length ≤ 1 → ∃ s', dispatch keyBS s = some s' ∧ s'.mode = .Normal) ∧
    (s.command ≠ chars ":q" → ∃ s', dispatch keyEnter s = some s' ∧ s'.mode = .Normal) := by
  obtain ⟨run, wd, ht, mo, cur, sb, cmd, buf⟩ := s
  simp only at hm
  subst hm
  refine ⟨?_, ?_, ?_, ?_⟩
  · refine ⟨cmdToNormal (State.mk run wd ht .Command cur sb cmd buf), ?_, rfl⟩
    unfold dispatch
    rw [if_neg (by decide)]
    show commandStep keyEsc _ = _
    unfold commandStep
    rw [if_neg (by decide), if_neg (by decide),
      if_pos (show keyEsc = (⟨.esc, .none⟩ : KeyEvent) from rfl)]
  · refine ⟨cmdToNormal (State.mk run wd ht .Command cur sb cmd buf), ?_, rfl⟩
    unfold dispatch
    rw [if_neg (by decide)]
    show commandStep keyCtrlC _ = _
    unfold commandStep
    rw [if_neg (by decide),
      if_pos (show keyCtrlC = (⟨.char 'c', .control⟩ : KeyEvent) from rfl)]
  · intro hlen
    simp only at hlen
    have h0 : cmd.dropLast = [] := by
      have := List.length_dropLast cmd
      cases hdl : cmd.dropLast with
      | nil => rfl
      | cons a t =>
        rw [hdl] at this
        simp at this
        omega
    refine ⟨{ running := run, width := wd, height := ht, mode := .Normal,
              cursor_pos := { normal := cur.normal, command := (1, cur.command.2),
                              insert := cur.insert },
              status_bar := sb.set 0 "NORMAL", command := cmd.dropLast,
              buffer := buf }, ?_, rfl⟩
    unfold dispatch
    rw [if_neg (by decide)]
    show commandStep keyBS _ = _
    unfold commandStep
    rw [if_pos (show keyBS = (⟨.backspace, .none⟩ : KeyEvent) from rfl)]
    dsimp only
    rw [if_pos (by rw [h0]; rfl)]
  · intro hq
    simp only at hq
    refine ⟨{ running := run, width := wd, height := ht, mode := .Normal,
              cursor_pos := { normal := cur.normal, command := (1, cur.command.2),
                              insert := cur.insert },
              status_bar := sb.set 0 "NORMAL", command := chars "Unknown command.",
              buffer := buf }, ?_, rfl⟩
    unfold dispatch
    rw [if_neg (by decide)]
    show commandStep keyEnter _ = _
    unfold commandStep
    rw [if_neg (by decide), if_neg (by decide), if_neg (by decide),
      if_pos (show keyEnter = (⟨.enter, .none⟩ : KeyEvent) from rfl)]
    dsimp only
    rw [if_neg hq]

/-- Witness for C7 (amended): all four exits at the reachable state with
command string ":" (whose Backspace empties it and which is not ":q"). -/
theorem c7_command_to_normal_witness :
    (∃ s', dispatch keyEsc sCmdColon = some s' ∧ s'.mode = .Normal) ∧
    (∃ s', dispatch keyCtrlC sCmdColon = some s' ∧ s'.mode = .Normal) ∧
    (∃ s', dispatch keyBS sCmdColon = some s' ∧ s'.mode = .Normal) ∧
    (∃ s', dispatch keyEnter sCmdColon = some s' ∧ s'.mode = .Normal) := by
  have h := c7_command_to_normal sCmdColon rfl
  exact ⟨h.1, h.2.1, h.2.2.1 (by decide), h.2.2.2 (by decide)⟩

/-- Auxiliary round-trip lemma: typing the characters `cs` and then pressing
Backspace `cs.length` times restores the full editor state, provided the
insert column starts within the current line and neither column leaves the
`u16` range along the way. -/
theorem c8_aux (cs : List Char) :
    ∀ (s : State) (line : List Char), s.mode = .Insert →
      s.buffer[s.cursor_pos.insert.2]? = some line →
      s.cursor_pos.insert.1 ≤ line.length →
      s.cursor_pos.insert.1 + cs.length < U16MOD →
      s.cursor_pos.normal.1 < U16MOD →
      stepsFold (typeKeys cs ++ bsKeys cs.length) s = some s := by
  induction cs with
  | nil => intro s line _ _ _ _ _; rfl
  | cons c cs ih =>
    intro s line hm hline hcol hcnt hnorm
    have hrow : s.cursor_pos.insert.2 < s.buffer.length := getElem?_some_lt hline
    have h1 : s.cursor_pos.insert.1 + 1 < U16MOD := by
      refine Nat.lt_of_le_of_lt ?_ hcnt
      simp only [List.length_cons]
      omega
    have hchar := insertStep_char s c line hm hline
    rw [Nat.min_eq_left hcol, wadd16_eq_of_lt h1] at hchar
    have hsplit : typeKeys (c :: cs) ++ bsKeys (c :: cs).length
        = charKey c :: ((typeKeys cs ++ bsKeys cs.length) ++ [keyBS]) := by
      simp only [typeKeys, bsKeys, List.map_cons, List.length_cons, List.cons_append]
      rw [List.replicate_succ']
      simp [List.append_assoc]
    rw [hsplit, stepsFold_cons, hchar, option_bind_some, stepsFold_append]
    have hmid := ih
      { s with
        buffer := s.buffer.set s.cursor_pos.insert.2 (line.insertIdx s.cursor_pos.insert.1 c),
        cursor_pos := { s.cursor_pos with
          insert := (s.cursor_pos.insert.1 + 1, s.cursor_pos.insert.2),
          normal := (wadd16 s.cursor_pos.normal.1 1, s.cursor_pos.normal.2) } }
      (line.insertIdx s.cursor_pos.insert.1 c) hm
      (List.getElem?_set_eq_of_lt _ hrow)
      (by show s.cursor_pos.insert.1 + 1 ≤ (line.insertIdx s.cursor_pos.insert.1 c).length
          rw [List.length_insertIdx _ _ hcol]
          omega)
      (by show s.cursor_pos.insert.1 + 1 + cs.length < U16MOD
          simp only [List.length_cons] at hcnt
          omega)
      (wadd16_lt _ _)
    rw [hmid, option_bind_some, stepsFold_cons]
    have hbs := insertStep_bs_pos
      { s with
        buffer := s.buffer.set s.cursor_pos.insert.2 (line.insertIdx s.cursor_pos.insert.1 c),
        cursor_pos := { s.cursor_pos with
          insert := (s.cursor_pos.insert.1 + 1, s.cursor_pos.insert.2),
          normal := (wadd16 s.cursor_pos.normal.1 1, s.cursor_pos.normal.2) } }
      (line.insertIdx s.cursor_pos.insert.1 c) hm
      (by show 0 < s.cursor_pos.insert.1 + 1; omega)
      (List.getElem?_set_eq_of_lt _ hrow)
    rw [hbs, option_bind_some, stepsFold_nil]
    refine congrArg some ?_
    obtain ⟨run, wd, ht, mo, cur, sb, cmd, buf⟩ := s
    obtain ⟨nor, com, ins⟩ := cur
    simp only at hm hline hcol hnorm hrow
    subst hm
    simp only [Nat.add_sub_cancel]
    rw [wsub16_wadd16_one hnorm]
    rw [if_pos (by rw [List.length_insertIdx _ _ hcol]; omega)]
    rw [List.set_set, List.eraseIdx_insertIdx, set_getElem?_self _ _ _ hline]

/-- The state reached from `sAfterA` by typing 'x' and pressing Backspace:
the typed character survives because the out-of-range insert column made the
insertion land at index 0 while Backspace aimed at index 1. -/
def sAfterAX : State :=
  { running := true, width := 80, height := 24, mode := .Insert,
    cursor_pos := { normal := (0, 0), command := (1, 23), insert := (1, 0) },
    status_bar := ["INSERT"], command := [], buffer := [['x']] }

/-- Claim C8 (counterexample): in the reachable Insert-mode state `sAfterA`
(insert column 1 on an empty line, produced by the `a` underflow), typing
one character and pressing Backspace once does not restore the line: the
line ends as "x" instead of the original "". -/
theorem c8_counterexample :
    Reachable 80 24 sAfterA ∧
    sAfterA.mode = .Insert ∧
    sAfterA.buffer[sAfterA.cursor_pos.insert.2]? = some [] ∧
    stepsFold (typeKeys ['x'] ++ bsKeys 1) sAfterA = some sAfterAX ∧
    sAfterAX.buffer[sAfterAX.cursor_pos.insert.2]? = some ['x'] ∧
    (['x'] : List Char) ≠ [] ∧
    sAfterAX.cursor_pos.insert.1 = sAfterA.cursor_pos.insert.1 := by
  refine ⟨Reachable.step keyA Reachable.init (by rfl), rfl, rfl, by rfl, rfl,
    by decide, rfl⟩

/-- Claim C8 (amended): for every reachable Insert-mode state whose insert
column is within the current line (and stays in `u16` range while typing),
typing `n` printable characters and then pressing Backspace `n` times
restores the entire state — in particular the current line's content and the
insert column.  The restriction `column <= line length` is necessary: the
counterexample starts from a reachable state with the column past the end of
the line. -/
theorem c8_typing_roundtrip (w h : Nat) (s : State) (cs : List Char) (line : List Char)
    (hr : Reachable w h s) (hm : s.mode = .Insert)
    (hline : s.buffer[s.cursor_pos.insert.2]? = some line)
    (hcol : s.cursor_pos.insert.1 ≤ line.length)
    (hcnt : s.cursor_pos.insert.1 + cs.length < U16MOD) :
    stepsFold (typeKeys cs ++ bsKeys cs.length) s = some s :=
  c8_aux cs s line hm hline hcol hcnt (inv_reachable hr).2.2.2.1

/-- Witness for C8 (amended): typing 'x' then Backspace in the reachable
state after pressing `i` restores it exactly. -/
theorem c8_typing_roundtrip_witness :
    stepsFold (typeKeys ['x'] ++ bsKeys (['x'] : List Char).length) sAfterI = some sAfterI :=
  c8_typing_roundtrip 80 24 sAfterI ['x'] []
    (Reachable.step keyI Reachable.init (by rfl)) rfl rfl (by decide) (by decide)

/-- Witness for C10 at the initial state. -/
theorem c10_jk_frame_witness :
    (∃ s', dispatch keyJ (initState 80 24) = some s' ∧
      s'.cursor_pos.normal.1 = (initState 80 24).cursor_pos.normal.1 ∧
      s'.cursor_pos.insert = (initState 80 24).cursor_pos.insert ∧
      s'.cursor_pos.command = (initState 80 24).cursor_pos.command ∧
      s'.buffer = (initState 80 24).buffer ∧ s'.mode = (initState 80 24).mode ∧
      s'.command = (initState 80 24).command ∧
      s'.status_bar = (initState 80 24).status_bar ∧
      s'.running = (initState 80 24).running) ∧
    (∃ s', dispatch keyK (initState 80 24) = some s' ∧
      s'.cursor_pos.normal.1 = (initState 80 24).cursor_pos.normal.1 ∧
      s'.cursor_pos.insert = (initState 80 24).cursor_pos.insert ∧
      s'.cursor_pos.command = (initState 80 24).cursor_pos.command ∧
      s'.buffer = (initState 80 24).buffer ∧ s'.mode = (initState 80 24).mode ∧
      s'.command = (initState 80 24).command ∧
      s'.status_bar = (initState 80 24).status_bar ∧
      s'.running = (initState 80 24).running) :=
  c10_jk_frame (initState 80 24) rfl

end Ami
